import Mathlib

/-!
Shallow embedding of the `prefix-system` on-chain program
(`src/programs/prefix-system/src`) and proofs about its prefix lifecycle,
fee escrow and attestation scanning logic.

Modelling conventions:
* A principal identity (`Pubkey`, 32 bytes on chain) is modelled by its byte
  content, a `List Nat`; the code only ever compares identities for equality
  and searches for their raw bytes inside instruction payloads.
* `u64` lamport amounts are modelled as `Nat` (balances are physically far
  below `2^64`, and every subtraction is guarded by an explicit balance
  check in the source); `i64` unix timestamps as `Int`.
* Rust `String` is modelled as Lean `String`; Rust `.len()` is the UTF-8
  byte length, hence `String.utf8ByteSize`.
* Fallible handlers return `Except`: the whole instruction aborts with the
  first failing `require!`, mirroring the all-or-nothing semantics.
* Account-validation effects performed by the framework outside the handler
  body (the `init` constraint on a fresh account, the `close = owner`
  constraint, failure of the system-program transfer CPI) are modelled
  explicitly where a claim depends on them.
-/

namespace PrefixSystem

/-- Error enum of `errors.rs` (`ErrorCode`), in source order. -/
inductive ErrorCode
  | UnauthorizedAdmin
  | UnauthorizedVerifier
  | InvalidPrefixFormat
  | PrefixAlreadyExists
  | InvalidPrefixStatus
  | InsufficientFee
  | InvalidMetadataHashLength
  | InvalidMetadataUri
  | InvalidTreasuryAccount
  | InsufficientTreasuryBalance
  | RefundNotAllowed
  | UnauthorizedOwnerAction
  | MissingBump
  | FeeOperationsPaused
  | PrefixExpired
  | AuthorityKeysTooMany
  | InvalidEd25519Signature
deriving DecidableEq

/-- Failures of an instruction: a program `ErrorCode`, or a failure raised
by the runtime outside the handler body (`init` on an account that already
exists; a system-program transfer with insufficient funds). -/
inductive ProgErr
  | code (e : ErrorCode)
  | accountAlreadyInUse
  | transferFailed
deriving DecidableEq

/-- A 32-byte principal identity, modelled by its byte content. -/
abbrev Pubkey := List Nat

/-- `constants.rs`: `MAX_PREFIX_LEN`. -/
def MAX_PREFIX_LEN : Nat := 12

/-- `constants.rs`: `MIN_PREFIX_LEN`. -/
def MIN_PREFIX_LEN : Nat := 3

/-- `constants.rs`: `MAX_URI_LEN`. -/
def MAX_URI_LEN : Nat := 255

/-- `constants.rs`: `MAX_AUTH_KEYS`. -/
def MAX_AUTH_KEYS : Nat := 10

/-- `constants.rs`: `MAX_VERIFIERS`. -/
def MAX_VERIFIERS : Nat := 256

/-- `constants.rs`: `MAX_EXPIRY_DURATION = 14 * 24 * 60 * 60` seconds. -/
def MAX_EXPIRY_DURATION : Nat := 14 * 24 * 60 * 60

/-- Rust `char::to_ascii_uppercase`: maps `a`-`z` to `A`-`Z`, leaves every
other character unchanged. -/
def to_ascii_uppercase (c : Char) : Char :=
  if 97 ≤ c.toNat ∧ c.toNat ≤ 122 then Char.ofNat (c.toNat - 32) else c

/-- Rust `char::is_ascii_alphanumeric`: `0`-`9`, `A`-`Z` or `a`-`z`. -/
def is_ascii_alphanumeric (c : Char) : Bool :=
  decide ((48 ≤ c.toNat ∧ c.toNat ≤ 57) ∨ (65 ≤ c.toNat ∧ c.toNat ≤ 90) ∨
    (97 ≤ c.toNat ∧ c.toNat ≤ 122))

/-- `utils.rs` `normalize_prefix`: uppercase the input, require byte length
between `MIN_PREFIX_LEN` and `MAX_PREFIX_LEN` and all characters ASCII
alphanumeric. -/
def normalize_prefix_str (input : String) : Except ErrorCode String :=
  let upper := String.mk (input.data.map to_ascii_uppercase)
  if upper.utf8ByteSize < MIN_PREFIX_LEN ∨ MAX_PREFIX_LEN < upper.utf8ByteSize then
    .error .InvalidPrefixFormat
  else if ¬ (upper.data.all is_ascii_alphanumeric) then
    .error .InvalidPrefixFormat
  else
    .ok upper

/-- Character-list prefix test (first list starts with the second). -/
def list_starts_with : List Char → List Char → Bool
  | _, [] => true
  | [], _ :: _ => false
  | c :: cs, p :: ps => (c == p) && list_starts_with cs ps

/-- Rust `str::starts_with(pat)`: on well-formed UTF-8 strings the byte
test of the source coincides with this character test. -/
def starts_with (s pat : String) : Bool :=
  list_starts_with s.data pat.data

/-- `utils.rs` `validate_metadata`: 32-byte hash, URI at most `MAX_URI_LEN`
bytes and starting with `https://` or `ipfs://`. -/
def validate_metadata (metadata_uri : String) (metadata_hash : List Nat) :
    Except ErrorCode Unit :=
  if metadata_hash.length ≠ 32 then .error .InvalidMetadataHashLength
  else if MAX_URI_LEN < metadata_uri.utf8ByteSize then .error .InvalidMetadataUri
  else if ¬ ( starts_with metadata_uri "https://" ∨ starts_with metadata_uri "ipfs://") then
    .error .InvalidMetadataUri
  else .ok ()

/-- Target of an instruction in the executing transaction: the Ed25519
signature-verification native program, or any other program id. -/
inductive ProgramId
  | ed25519
  | other (key : Pubkey)
deriving DecidableEq

/-- One instruction of the executing transaction, as read back through the
instructions sysvar: its target program and its raw data buffer. -/
structure Instr where
  program_id : ProgramId
  data : List Nat
deriving DecidableEq

/-- Rust `data.windows(32).any(|w| w == pat)`: some contiguous 32-byte
window of `data` equals `pat` (`false` whenever `data` is shorter than 32
bytes). -/
def hasWindow32 : List Nat → List Nat → Bool
  | [], _ => false
  | d :: rest, pat =>
      (decide (32 ≤ (d :: rest).length) && ((d :: rest).take 32 == pat)) ||
        hasWindow32 rest pat

/-- `utils.rs` `verify_ed25519_signature`: scan the transaction's
instructions in order; accept at the first instruction targeting the
Ed25519 program whose data contains both the owner's 32 pubkey bytes and
the 32 metadata-hash bytes as contiguous windows; fail with
`InvalidEd25519Signature` when the scan exhausts the list. -/
def verify_ed25519_signature (ixs : List Instr) (owner_pubkey : Pubkey)
    (metadata_hash : List Nat) : Except ErrorCode Unit :=
  match ixs with
  | [] => .error .InvalidEd25519Signature
  | ix :: rest =>
      if ix.program_id = ProgramId.ed25519 then
        if hasWindow32 ix.data owner_pubkey && hasWindow32 ix.data metadata_hash then
          .ok ()
        else
          verify_ed25519_signature rest owner_pubkey metadata_hash
      else
        verify_ed25519_signature rest owner_pubkey metadata_hash

/-- `state/prefix_account.rs` `PrefixStatus`. -/
inductive PrefixStatus
  | Pending
  | Active
  | Rejected
  | Inactive
deriving DecidableEq

/-- `state/prefix_account.rs` `PrefixAccount` (the field `prefix` of the
source is rendered `pfx`, as `prefix` is a reserved word in Lean). -/
structure PrefixAccount where
  owner : Pubkey
  pfx : String
  metadata_uri : String
  metadata_hash : List Nat
  ref_hash : List Nat
  status : PrefixStatus
  authority_keys : List Pubkey
  fee_paid : Nat
  expiry_at : Int
  created_at : Int
  updated_at : Int
  bump : Nat
deriving DecidableEq

/-- `state/fee_registry.rs` `FeeRegistry`. -/
structure FeeRegistry where
  admin : Pubkey
  current_fee : Nat
  pause : Bool
  bump : Nat
  created_at : Int
  updated_at : Int
deriving DecidableEq

/-- `state/verifiers_list.rs` `VerifiersList`. -/
structure VerifiersList where
  admin : Pubkey
  verifiers : List Pubkey
  bump : Nat
  created_at : Int
  updated_at : Int
deriving DecidableEq

/-- Accounts and environment visible to `submit_prefix_with_fee`:
the fee registry, the treasury PDA (its lamports and whether it is owned by
this program), the signing owner with its lamports, the prefix PDA for the
submitted key (`none` when no such account exists yet), the instructions
sysvar content, the clock, and the bump of the fresh prefix PDA. -/
structure SubmitState where
  fee_registry : FeeRegistry
  treasury_lamports : Nat
  treasury_owned_by_program : Bool
  owner : Pubkey
  owner_lamports : Nat
  record : Option PrefixAccount
  ixs : List Instr
  now : Int
  record_bump : Nat
deriving DecidableEq

/-- `instructions/prefix/submit_prefix_with_fee.rs`
`submit_prefix_with_fee_handler`, together with the `init` account
constraint (the prefix PDA must not already exist) and the system-program
fee transfer it performs by CPI. -/
def submit_prefix_with_fee_handler (st : SubmitState) (pfx metadata_uri : String)
    (metadata_hash : List Nat) (authority_keys : List Pubkey) :
    Except ProgErr SubmitState :=
  -- Anchor `init` on `prefix_account`: fails when the account exists
  match st.record with
  | some _ => .error .accountAlreadyInUse
  | none =>
  if st.fee_registry.pause then .error (.code .FeeOperationsPaused) else
  match normalize_prefix_str pfx with
  | .error e => .error (.code e)
  | .ok normalized =>
  if pfx ≠ normalized then .error (.code .InvalidPrefixFormat) else
  match validate_metadata metadata_uri metadata_hash with
  | .error e => .error (.code e)
  | .ok _ =>
  if MAX_AUTH_KEYS < authority_keys.length then .error (.code .AuthorityKeysTooMany) else
  if ¬ st.treasury_owned_by_program then .error (.code .InvalidTreasuryAccount) else
  match verify_ed25519_signature st.ixs st.owner metadata_hash with
  | .error e => .error (.code e)
  | .ok _ =>
  let fee := st.fee_registry.current_fee
  if fee = 0 then .error (.code .InsufficientFee) else
  -- system-program transfer owner → treasury of `fee` lamports
  if st.owner_lamports < fee then .error .transferFailed else
  .ok { st with
        owner_lamports := st.owner_lamports - fee,
        treasury_lamports := st.treasury_lamports + fee,
        record := some {
          owner := st.owner,
          pfx := normalized,
          metadata_uri := metadata_uri,
          metadata_hash := metadata_hash,
          ref_hash := List.replicate 32 0,
          status := .Pending,
          authority_keys := authority_keys,
          fee_paid := fee,
          expiry_at := st.now + (MAX_EXPIRY_DURATION : Int),
          created_at := st.now,
          updated_at := st.now,
          bump := st.record_bump } }

/-- Accounts and environment visible to `refund_prefix_fee`: signing owner
with lamports, fee registry, treasury PDA, the (existing) prefix record,
and the clock. -/
structure RefundState where
  owner : Pubkey
  owner_lamports : Nat
  fee_registry : FeeRegistry
  treasury_lamports : Nat
  treasury_owned_by_program : Bool
  record : PrefixAccount
  now : Int
deriving DecidableEq

/-- State after a refund: the prefix PDA is `none` when it was closed
(`close = owner` account constraint). -/
structure RefundOutcome where
  owner_lamports : Nat
  treasury_lamports : Nat
  record : Option PrefixAccount
deriving DecidableEq

/-- `instructions/prefix/refund_prefix_fee.rs` `refund_prefix_fee_handler`,
with the `close = owner` constraint rendered as the record becoming
`none`. -/
def refund_prefix_fee_handler (st : RefundState) : Except ErrorCode RefundOutcome :=
  if st.fee_registry.pause then .error .FeeOperationsPaused else
  let is_rejected : Bool := st.record.status == .Rejected
  let is_expired : Bool :=
    st.record.status == .Pending && decide (st.record.expiry_at < st.now)
  if ¬ (is_rejected || is_expired) then .error .RefundNotAllowed else
  if st.owner ≠ st.record.owner then .error .UnauthorizedOwnerAction else
  if ¬ st.treasury_owned_by_program then .error .InvalidTreasuryAccount else
  let amount := st.record.fee_paid
  if amount = 0 then .error .RefundNotAllowed else
  if st.treasury_lamports < amount then .error .InsufficientTreasuryBalance else
  .ok { owner_lamports := st.owner_lamports + amount,
        treasury_lamports := st.treasury_lamports - amount,
        record := none }

/-- Accounts and environment common to `approve_prefix` and
`reject_prefix`: the signing verifier, fee registry, verifiers list, the
prefix record and the clock (the unused treasury account of the approve
context is omitted). -/
structure VerifierActionState where
  verifier : Pubkey
  fee_registry : FeeRegistry
  verifiers : VerifiersList
  record : PrefixAccount
  now : Int
deriving DecidableEq

/-- `instructions/prefix/approve_prefix.rs` `approve_prefix_handler`. -/
def approve_prefix_handler (st : VerifierActionState) (ref_hash : List Nat) :
    Except ErrorCode VerifierActionState :=
  if st.fee_registry.pause then .error .FeeOperationsPaused else
  if ¬ (st.verifiers.verifiers.contains st.verifier) then .error .UnauthorizedVerifier else
  if st.record.status ≠ .Pending then .error .InvalidPrefixStatus else
  if ¬ (st.now ≤ st.record.expiry_at) then .error .PrefixExpired else
  .ok { st with record :=
        { st.record with status := .Active, ref_hash := ref_hash, updated_at := st.now } }

/-- `instructions/prefix/reject_prefix.rs` `reject_prefix_handler` (the
`reason` argument is only echoed into the emitted event). -/
def reject_prefix_handler (st : VerifierActionState) (_reason : String) :
    Except ErrorCode VerifierActionState :=
  if st.fee_registry.pause then .error .FeeOperationsPaused else
  if ¬ (st.verifiers.verifiers.contains st.verifier) then .error .UnauthorizedVerifier else
  if st.record.status ≠ .Pending then .error .InvalidPrefixStatus else
  .ok { st with record := { st.record with status := .Rejected, updated_at := st.now } }

/-- Accounts and environment visible to `update_prefix_metadata`: signing
owner, the prefix record, the instructions sysvar content and the clock. -/
structure UpdateMetaState where
  owner : Pubkey
  record : PrefixAccount
  ixs : List Instr
  now : Int
deriving DecidableEq

/-- `instructions/prefix/update_prefix_metadata.rs`
`update_prefix_metadata_handler`. -/
def update_prefix_metadata_handler (st : UpdateMetaState) (new_uri : String)
    (new_hash : List Nat) : Except ErrorCode UpdateMetaState :=
  if st.owner ≠ st.record.owner then .error .UnauthorizedOwnerAction else
  if st.record.status = .Rejected then .error .InvalidPrefixStatus else
  match validate_metadata new_uri new_hash with
  | .error e => .error e
  | .ok _ =>
  match verify_ed25519_signature st.ixs st.owner new_hash with
  | .error e => .error e
  | .ok _ =>
  let acct := { st.record with metadata_uri := new_uri, metadata_hash := new_hash }
  let acct :=
    if acct.status = .Active then
      { acct with status := PrefixStatus.Pending, ref_hash := List.replicate 32 0 }
    else acct
  .ok { st with record := { acct with updated_at := st.now } }

/-- Accounts and environment visible to `deactivate_prefix` and
`reactivate_prefix`: the signing admin, fee registry, the prefix record and
the clock. -/
structure AdminPrefixState where
  admin : Pubkey
  fee_registry : FeeRegistry
  record : PrefixAccount
  now : Int
deriving DecidableEq

/-- `instructions/prefix/deactivate_prefix.rs` `deactivate_prefix_handler`. -/
def deactivate_prefix_handler (st : AdminPrefixState) : Except ErrorCode AdminPrefixState :=
  if st.admin ≠ st.fee_registry.admin then .error .UnauthorizedAdmin else
  if st.record.status ≠ .Active then .error .InvalidPrefixStatus else
  .ok { st with record := { st.record with status := .Inactive, updated_at := st.now } }

/-- `instructions/prefix/reactivate_prefix.rs` `reactivate_prefix_handler`. -/
def reactivate_prefix_handler (st : AdminPrefixState) : Except ErrorCode AdminPrefixState :=
  if st.admin ≠ st.fee_registry.admin then .error .UnauthorizedAdmin else
  if st.record.status ≠ .Inactive then .error .InvalidPrefixStatus else
  .ok { st with record := { st.record with status := .Active, updated_at := st.now } }

/-- Accounts and environment visible to `recover_prefix_owner_with_fee`:
the signing prospective owner with lamports, the signing admin, fee
registry, treasury lamports, the prefix record and the clock. -/
structure RecoverState where
  new_owner_signer : Pubkey
  new_owner_lamports : Nat
  admin : Pubkey
  fee_registry : FeeRegistry
  treasury_lamports : Nat
  record : PrefixAccount
  now : Int
deriving DecidableEq

/-- `instructions/prefix/recover_prefix_owner_with_fee.rs`
`recover_prefix_owner_with_fee_handler` (the explicit lamports check makes
the subsequent transfer CPI total). -/
def recover_prefix_owner_with_fee_handler (st : RecoverState) (new_owner : Pubkey) :
    Except ErrorCode RecoverState :=
  if st.admin ≠ st.fee_registry.admin then .error .UnauthorizedAdmin else
  if st.fee_registry.pause then .error .FeeOperationsPaused else
  if st.new_owner_signer ≠ new_owner then .error .UnauthorizedOwnerAction else
  let fee := st.fee_registry.current_fee
  if fee = 0 then .error .InsufficientFee else
  if st.new_owner_lamports < fee then .error .InsufficientFee else
  .ok { st with
        new_owner_lamports := st.new_owner_lamports - fee,
        treasury_lamports := st.treasury_lamports + fee,
        record := { st.record with owner := new_owner, updated_at := st.now } }

/-- Accounts and environment visible to `add_verifier` and
`remove_verifier`: signing admin, fee registry, verifiers list and the
clock. -/
structure VerifierAdminState where
  admin : Pubkey
  fee_registry : FeeRegistry
  verifiers : VerifiersList
  now : Int
deriving DecidableEq

/-- `instructions/admin/add_verifier.rs` `add_verifier_handler`. -/
def add_verifier_handler (st : VerifierAdminState) (verifier : Pubkey) :
    Except ErrorCode VerifierAdminState :=
  if st.admin ≠ st.fee_registry.admin then .error .UnauthorizedAdmin else
  if st.verifiers.verifiers.contains verifier then
    .error .InvalidPrefixStatus -- the source reuses this generic error code
  else
    .ok { st with verifiers :=
          { st.verifiers with
              verifiers := st.verifiers.verifiers ++ [verifier],
              updated_at := st.now } }

/-- `instructions/admin/remove_verifier.rs` `remove_verifier_handler`:
`position(|v| *v == verifier)` followed by `Vec::remove(pos)`. -/
def remove_verifier_handler (st : VerifierAdminState) (verifier : Pubkey) :
    Except ErrorCode VerifierAdminState :=
  if st.admin ≠ st.fee_registry.admin then .error .UnauthorizedAdmin else
  match st.verifiers.verifiers.findIdx? (fun v => v == verifier) with
  | none => .error .UnauthorizedVerifier
  | some pos =>
      .ok { st with verifiers :=
            { st.verifiers with
                verifiers := st.verifiers.verifiers.eraseIdx pos,
                updated_at := st.now } }

/-- Accounts and environment visible to `update_fee` and `set_pause`:
signing admin, fee registry and the clock. -/
structure FeeAdminState where
  admin : Pubkey
  fee_registry : FeeRegistry
  now : Int
deriving DecidableEq

/-- `instructions/admin/update_fee.rs` `update_fee_handler` (no pause
check: fee correction stays available while paused). -/
def update_fee_handler (st : FeeAdminState) (new_fee : Nat) :
    Except ErrorCode FeeAdminState :=
  if st.admin ≠ st.fee_registry.admin then .error .UnauthorizedAdmin else
  .ok { st with fee_registry :=
        { st.fee_registry with current_fee := new_fee, updated_at := st.now } }

/-- `instructions/admin/set_pause.rs` `set_pause_handler`. -/
def set_pause_handler (st : FeeAdminState) (pause : Bool) :
    Except ErrorCode FeeAdminState :=
  if st.admin ≠ st.fee_registry.admin then .error .UnauthorizedAdmin else
  .ok { st with fee_registry :=
        { st.fee_registry with pause := pause, updated_at := st.now } }

/-- Accounts and environment visible to `withdraw_treasury`: signing
admin, fee registry, treasury PDA, the destination account and the clock. -/
structure WithdrawState where
  admin : Pubkey
  fee_registry : FeeRegistry
  treasury_lamports : Nat
  treasury_owned_by_program : Bool
  to_account : Pubkey
  to_lamports : Nat
  now : Int
deriving DecidableEq

/-- `instructions/admin/withdraw_treasury.rs` `withdraw_treasury_handler`. -/
def withdraw_treasury_handler (st : WithdrawState) (amount : Nat) (to_key : Pubkey) :
    Except ErrorCode WithdrawState :=
  if st.admin ≠ st.fee_registry.admin then .error .UnauthorizedAdmin else
  if st.fee_registry.pause then .error .FeeOperationsPaused else
  if ¬ st.treasury_owned_by_program then .error .InvalidTreasuryAccount else
  if st.treasury_lamports < amount then .error .InsufficientTreasuryBalance else
  if st.to_account ≠ to_key then .error .InvalidTreasuryAccount else
  .ok { st with
        treasury_lamports := st.treasury_lamports - amount,
        to_lamports := st.to_lamports + amount }

/-- Spec-side reading of the window test: `pat` occurs as a contiguous
32-byte substring somewhere in `data`. -/
def hasSub32 (data pat : List Nat) : Prop :=
  ∃ i, i + 32 ≤ data.length ∧ (data.drop i).take 32 = pat

/-- Spec-side reading of an acceptable attestation instruction: it targets
the Ed25519 program and its data buffer contains both the claimed
identity's 32 bytes and the 32-byte digest as contiguous substrings. -/
def attests (ix : Instr) (owner hash : List Nat) : Prop :=
  ix.program_id = ProgramId.ed25519 ∧ hasSub32 ix.data owner ∧ hasSub32 ix.data hash

/-- The Boolean form of the attestation test, as the scan of the source
computes it. -/
def attestsb (ix : Instr) (owner hash : List Nat) : Bool :=
  decide (ix.program_id = ProgramId.ed25519) && hasWindow32 ix.data owner &&
    hasWindow32 ix.data hash

/-!
### Concrete example states

Fixtures used by the witness and counterexample theorems below.
-/

/-- Example admin identity. -/
def exAdmin : Pubkey := [7]

/-- Example verifier identity. -/
def exVerifier : Pubkey := [9]

/-- Example owner identity (32 bytes). -/
def exOwner : Pubkey := List.replicate 32 2

/-- Example 32-byte metadata hash. -/
def exHash : List Nat := List.replicate 32 1

/-- The all-zero 32-byte hash. -/
def exZeroHash : List Nat := List.replicate 32 0

/-- Example fee registry with fee 5 and a chosen pause flag. -/
def exFeeRegistry (paused : Bool) : FeeRegistry :=
  { admin := exAdmin, current_fee := 5, pause := paused, bump := 1,
    created_at := 0, updated_at := 0 }

/-- Example Ed25519 attestation instruction binding `exOwner` to `exHash`. -/
def exAttestIx : Instr := ⟨ProgramId.ed25519, exOwner ++ exHash⟩

/-- Example prefix record in a chosen status. -/
def exRecord (s : PrefixStatus) : PrefixAccount :=
  { owner := exOwner, pfx := "ABC", metadata_uri := "https://x",
    metadata_hash := exHash, ref_hash := exZeroHash, status := s,
    authority_keys := [], fee_paid := 5, expiry_at := 100, created_at := 0,
    updated_at := 0, bump := 3 }

/-- Example state for an accepting submission. -/
def exSubmitState (paused : Bool) : SubmitState :=
  { fee_registry := exFeeRegistry paused, treasury_lamports := 100,
    treasury_owned_by_program := true, owner := exOwner, owner_lamports := 10,
    record := none, ixs := [exAttestIx], now := 0, record_bump := 3 }

/-- The state produced by the example accepting submission. -/
def exSubmitResult : SubmitState :=
  { exSubmitState false with
    owner_lamports := 5, treasury_lamports := 105,
    record := some {
      owner := exOwner, pfx := "ABC", metadata_uri := "https://x",
      metadata_hash := exHash, ref_hash := exZeroHash, status := .Pending,
      authority_keys := [], fee_paid := 5, expiry_at := 1209600,
      created_at := 0, updated_at := 0, bump := 3 } }

/-- Example refund state over a record in a chosen status. -/
def exRefundState (paused : Bool) (s : PrefixStatus) : RefundState :=
  { owner := exOwner, owner_lamports := 10, fee_registry := exFeeRegistry paused,
    treasury_lamports := 100, treasury_owned_by_program := true,
    record := exRecord s, now := 0 }

/-- Example verifiers list holding just `exVerifier`. -/
def exVerifiersList : VerifiersList :=
  { admin := exAdmin, verifiers := [exVerifier], bump := 1, created_at := 0,
    updated_at := 0 }

/-- Example approve/reject state over a record in a chosen status. -/
def exVerifierActionState (paused : Bool) (s : PrefixStatus) : VerifierActionState :=
  { verifier := exVerifier, fee_registry := exFeeRegistry paused,
    verifiers := exVerifiersList, record := exRecord s, now := 0 }

/-- Example metadata-update state over a record in a chosen status. -/
def exUpdateMetaState (s : PrefixStatus) : UpdateMetaState :=
  { owner := exOwner, record := exRecord s, ixs := [exAttestIx], now := 5 }

/-- Example deactivate/reactivate state over a record in a chosen status. -/
def exAdminPrefixState (s : PrefixStatus) : AdminPrefixState :=
  { admin := exAdmin, fee_registry := exFeeRegistry false, record := exRecord s,
    now := 1 }

/-- Example admin state over the verifiers list. -/
def exVerifierAdminState (paused : Bool) : VerifierAdminState :=
  { admin := exAdmin, fee_registry := exFeeRegistry paused,
    verifiers := exVerifiersList, now := 0 }

/-- A verifiers list filled to `MAX_VERIFIERS` distinct identities. -/
def exFullVerifiers : VerifiersList :=
  { admin := exAdmin, verifiers := (List.range 256).map (fun n => [n]), bump := 1,
    created_at := 0, updated_at := 0 }

/-- Admin state over the full verifiers list. -/
def exFullVerifierAdminState : VerifierAdminState :=
  { admin := exAdmin, fee_registry := exFeeRegistry false,
    verifiers := exFullVerifiers, now := 0 }

/-- The state produced by adding `[999]` to the full verifiers list. -/
def exFullAddResult : VerifierAdminState :=
  { exFullVerifierAdminState with
    verifiers := { exFullVerifiers with
      verifiers := exFullVerifiers.verifiers ++ [[999]], updated_at := 0 } }

/-- Example admin state for `update_fee` / `set_pause`. -/
def exFeeAdminState (paused : Bool) : FeeAdminState :=
  { admin := exAdmin, fee_registry := exFeeRegistry paused, now := 0 }

/-- Example withdraw state. -/
def exWithdrawState (paused : Bool) : WithdrawState :=
  { admin := exAdmin, fee_registry := exFeeRegistry paused,
    treasury_lamports := 100, treasury_owned_by_program := true,
    to_account := [5], to_lamports := 0, now := 0 }

/-- Example recovery state. -/
def exRecoverState (paused : Bool) : RecoverState :=
  { new_owner_signer := [4], new_owner_lamports := 50, admin := exAdmin,
    fee_registry := exFeeRegistry paused, treasury_lamports := 100,
    record := exRecord .Active, now := 0 }

/-!
### Theorems
-/

theorem hasWindow32_iff_hasSub32 (data pat : List Nat) :
    hasWindow32 data pat = true ↔ hasSub32 data pat := by
  induction data with
  | nil =>
      simp [hasWindow32, hasSub32]
  | cons d rest ih =>
      simp only [hasWindow32, Bool.or_eq_true, Bool.and_eq_true, decide_eq_true_eq,
        beq_iff_eq, ih]
      constructor
      · rintro (⟨hlen, htake⟩ | hsub)
        · exact ⟨0, by simpa using hlen, by simpa using htake⟩
        · obtain ⟨i, hi, ht⟩ := hsub
          refine ⟨i + 1, ?_, ?_⟩
          · simp only [List.length_cons]; omega
          · simpa [List.drop_succ_cons] using ht
      · rintro ⟨i, hi, ht⟩
        cases i with
        | zero => exact Or.inl ⟨by simpa using hi, by simpa using ht⟩
        | succ j =>
            refine Or.inr ⟨j, ?_, ?_⟩
            · simp only [List.length_cons] at hi; omega
            · simpa [List.drop_succ_cons] using ht

theorem attestsb_iff (ix : Instr) (owner hash : List Nat) :
    attestsb ix owner hash = true ↔ attests ix owner hash := by
  simp [attestsb, attests, Bool.and_eq_true, decide_eq_true_eq,
    hasWindow32_iff_hasSub32, and_assoc]

theorem verify_ed25519_signature_outcomes (ixs : List Instr) (owner hash : List Nat) :
    verify_ed25519_signature ixs owner hash = .ok () ∨
      verify_ed25519_signature ixs owner hash = .error .InvalidEd25519Signature := by
  induction ixs with
  | nil => exact Or.inr rfl
  | cons ix rest ih =>
      simp only [verify_ed25519_signature]
      split
      · split
        · exact Or.inl rfl
        · exact ih
      · exact ih

theorem verify_ed25519_signature_ok_iff (ixs : List Instr) (owner hash : List Nat) :
    verify_ed25519_signature ixs owner hash = .ok () ↔
      ∃ ix ∈ ixs, attests ix owner hash := by
  induction ixs with
  | nil => simp [verify_ed25519_signature]
  | cons ix rest ih =>
      simp only [verify_ed25519_signature, List.mem_cons]
      split
      · rename_i hpid
        split
        · rename_i hw
          simp only [Bool.and_eq_true, hasWindow32_iff_hasSub32] at hw
          exact ⟨fun _ => ⟨ix, Or.inl rfl, hpid, hw.1, hw.2⟩, fun _ => rfl⟩
        · rename_i hw
          simp only [Bool.and_eq_true, hasWindow32_iff_hasSub32] at hw
          rw [ih]
          constructor
          · rintro ⟨jx, hmem, hat⟩
            exact ⟨jx, Or.inr hmem, hat⟩
          · rintro ⟨jx, hmem | hmem, hat⟩
            · subst hmem
              exact absurd ⟨hat.2.1, hat.2.2⟩ hw
            · exact ⟨jx, hmem, hat⟩
      · rename_i hpid
        rw [ih]
        constructor
        · rintro ⟨jx, hmem, hat⟩
          exact ⟨jx, Or.inr hmem, hat⟩
        · rintro ⟨jx, hmem | hmem, hat⟩
          · subst hmem
            exact absurd hat.1 hpid
          · exact ⟨jx, hmem, hat⟩

theorem verify_ed25519_signature_stops_at_first (owner hash : List Nat)
    (pre suf suf' : List Instr) (ix : Instr) (hat : attests ix owner hash) :
    verify_ed25519_signature (pre ++ ix :: suf) owner hash =
      verify_ed25519_signature (pre ++ ix :: suf') owner hash := by
  induction pre with
  | nil =>
      have hw : (hasWindow32 ix.data owner && hasWindow32 ix.data hash) = true := by
        simp only [Bool.and_eq_true, hasWindow32_iff_hasSub32]
        exact ⟨hat.2.1, hat.2.2⟩
      simp [verify_ed25519_signature, hat.1, hw]
  | cons p ps ih =>
      simp only [List.cons_append, verify_ed25519_signature]
      split
      · split
        · rfl
        · exact ih
      · exact ih

/-- C4: `verify_ed25519_signature` succeeds exactly when some instruction of
the executing batch targets the Ed25519 program and carries both the claimed
identity's 32 bytes and the 32-byte digest as contiguous substrings of its
data; the scan accepts at the first such instruction, and its result does
not depend on anything after that instruction; when no instruction of the
whole batch qualifies it fails with `InvalidEd25519Signature`. -/
theorem verify_ed25519_signature_spec (ixs : List Instr) (owner hash : List Nat) :
    (verify_ed25519_signature ixs owner hash = .ok () ↔
      ∃ ix ∈ ixs, attests ix owner hash) ∧
    ((¬ ∃ ix ∈ ixs, attests ix owner hash) →
      verify_ed25519_signature ixs owner hash = .error .InvalidEd25519Signature) ∧
    (∀ pre suf suf' ix, attests ix owner hash →
      verify_ed25519_signature (pre ++ ix :: suf) owner hash =
        verify_ed25519_signature (pre ++ ix :: suf') owner hash) := by
  refine ⟨verify_ed25519_signature_ok_iff ixs owner hash, ?_, ?_⟩
  · intro hno
    rcases verify_ed25519_signature_outcomes ixs owner hash with hok | herr
    · exact absurd ((verify_ed25519_signature_ok_iff ixs owner hash).mp hok) hno
    · exact herr
  · intro pre suf suf' ix hat
    exact verify_ed25519_signature_stops_at_first owner hash pre suf suf' ix hat

/-- Witness for C4: the attestation instruction binding `exOwner` to
`exHash` is accepted, and a batch whose only instruction targets a
different program is rejected with `InvalidEd25519Signature`. -/
theorem verify_ed25519_signature_spec_witness :
    verify_ed25519_signature [exAttestIx] exOwner exHash = .ok () ∧
    verify_ed25519_signature [⟨ProgramId.other [3], exOwner ++ exHash⟩] exOwner exHash =
      .error .InvalidEd25519Signature := by
  constructor
  · exact (verify_ed25519_signature_spec [exAttestIx] exOwner exHash).1.mpr
      ⟨exAttestIx, by simp, rfl, ⟨0, by decide, by decide⟩, ⟨32, by decide, by decide⟩⟩
  · refine (verify_ed25519_signature_spec _ exOwner exHash).2.1 ?_
    rintro ⟨jx, hmem, hat⟩
    simp only [List.mem_singleton] at hmem
    subst hmem
    exact absurd hat.1 (by simp [attests])

/-- C1: every submission accepted by `submit_prefix_with_fee` started from
a state with no existing record for the key, required a positive fee, and
leaves exactly one Prefix Record — status `Pending`, `ref_hash` all zeroes,
`fee_paid` equal to the fee in effect at submission time, `expiry_at` =
submission time + 1209600 seconds — with the treasury balance increased by
exactly that fee, debited from the caller. -/
theorem submit_accepted_postconditions
    (st : SubmitState) (pfx metadata_uri : String) (metadata_hash : List Nat)
    (authority_keys : List Pubkey) (s' : SubmitState)
    (h : submit_prefix_with_fee_handler st pfx metadata_uri metadata_hash
      authority_keys = .ok s') :
    st.record = none ∧
    0 < st.fee_registry.current_fee ∧
    s'.treasury_lamports = st.treasury_lamports + st.fee_registry.current_fee ∧
    s'.owner_lamports + st.fee_registry.current_fee = st.owner_lamports ∧
    ∃ r, s'.record = some r ∧
      r.status = PrefixStatus.Pending ∧
      r.ref_hash = List.replicate 32 0 ∧
      r.fee_paid = st.fee_registry.current_fee ∧
      r.expiry_at = st.now + 1209600 := by
  unfold submit_prefix_with_fee_handler at h
  repeat' split at h
  any_goals exact Except.noConfusion h
  simp only [] at h
  repeat' split at h
  any_goals exact Except.noConfusion h
  injection h with h
  subst h
  dsimp only
  refine ⟨by assumption, by omega, rfl, by omega, _, rfl, rfl, rfl, rfl, ?_⟩
  show st.now + ((MAX_EXPIRY_DURATION : Nat) : Int) = st.now + 1209600
  norm_num [MAX_EXPIRY_DURATION]

/-- Witness for C1: a concrete accepting submission of `"ABC"`. -/
theorem submit_accepted_postconditions_witness :
    (exSubmitState false).record = none ∧
    0 < (exSubmitState false).fee_registry.current_fee ∧
    exSubmitResult.treasury_lamports =
      (exSubmitState false).treasury_lamports +
        (exSubmitState false).fee_registry.current_fee ∧
    exSubmitResult.owner_lamports + (exSubmitState false).fee_registry.current_fee =
      (exSubmitState false).owner_lamports ∧
    ∃ r, exSubmitResult.record = some r ∧
      r.status = PrefixStatus.Pending ∧
      r.ref_hash = List.replicate 32 0 ∧
      r.fee_paid = (exSubmitState false).fee_registry.current_fee ∧
      r.expiry_at = (exSubmitState false).now + 1209600 :=
  submit_accepted_postconditions (exSubmitState false) "ABC" "https://x" exHash []
    exSubmitResult (by rfl)

/-- C2: with a program-owned treasury, `refund_prefix_fee` succeeds iff the
registry is not paused, the caller is the record's owner, the status is
Rejected or expired Pending, `fee_paid` is positive and the treasury covers
it; on success exactly `fee_paid` moves treasury → owner and the record is
destroyed; on an Active, Inactive or non-expired Pending record it fails
with `RefundNotAllowed`. -/
theorem refund_allowed_iff (st : RefundState)
    (hT : st.treasury_owned_by_program = true) :
    ((∃ out, refund_prefix_fee_handler st = .ok out) ↔
      (st.fee_registry.pause = false ∧
       (st.record.status = PrefixStatus.Rejected ∨
         (st.record.status = PrefixStatus.Pending ∧ st.record.expiry_at < st.now)) ∧
       st.owner = st.record.owner ∧
       0 < st.record.fee_paid ∧
       st.record.fee_paid ≤ st.treasury_lamports)) ∧
    (∀ out, refund_prefix_fee_handler st = .ok out →
      out.treasury_lamports + st.record.fee_paid = st.treasury_lamports ∧
      out.owner_lamports = st.owner_lamports + st.record.fee_paid ∧
      out.record = none) ∧
    (st.fee_registry.pause = false →
      (st.record.status = PrefixStatus.Active ∨
        st.record.status = PrefixStatus.Inactive ∨
        (st.record.status = PrefixStatus.Pending ∧
          st.now ≤ st.record.expiry_at)) →
      refund_prefix_fee_handler st = .error .RefundNotAllowed) := by
  refine ⟨⟨?_, ?_⟩, ?_, ?_⟩
  · rintro ⟨out, hout⟩
    unfold refund_prefix_fee_handler at hout
    simp only [] at hout
    repeat' split at hout
    any_goals exact Except.noConfusion hout
    refine ⟨?_, ?_, ?_, ?_, ?_⟩
    · simp_all
    · simp_all
      tauto
    · simp_all
    · omega
    · omega
  · rintro ⟨h1, h2, h3, h4, h5⟩
    refine ⟨{ owner_lamports := st.owner_lamports + st.record.fee_paid,
              treasury_lamports := st.treasury_lamports - st.record.fee_paid,
              record := none }, ?_⟩
    unfold refund_prefix_fee_handler
    simp only []
    rw [if_neg (by simp [h1])]
    rw [if_neg (by
      rw [not_not]
      simp only [Bool.or_eq_true, Bool.and_eq_true, beq_iff_eq, decide_eq_true_eq]
      exact h2)]
    rw [if_neg (by simp [h3])]
    rw [if_neg (by simp [hT])]
    rw [if_neg (by omega)]
    rw [if_neg (by omega)]
  · intro out hout
    unfold refund_prefix_fee_handler at hout
    simp only [] at hout
    repeat' split at hout
    any_goals exact Except.noConfusion hout
    injection hout with hout
    subst hout
    dsimp only
    exact ⟨by omega, rfl, rfl⟩
  · intro hp hstat
    unfold refund_prefix_fee_handler
    simp only []
    rw [if_neg (by simp [hp])]
    rw [if_pos (by
      simp only [Bool.or_eq_true, Bool.and_eq_true, beq_iff_eq, decide_eq_true_eq]
      rcases hstat with h | h | ⟨h, h2⟩
      · simp [h]
      · simp [h]
      · simp [h]
        omega)]

/-- Witness for C2: refunding a concrete Rejected record succeeds and moves
exactly `fee_paid`, and refunding the same record while Active fails with
`RefundNotAllowed`. -/
theorem refund_allowed_iff_witness :
    (∃ out, refund_prefix_fee_handler (exRefundState false .Rejected) = .ok out) ∧
    refund_prefix_fee_handler (exRefundState false .Active) =
      .error .RefundNotAllowed :=
  ⟨(refund_allowed_iff (exRefundState false .Rejected) rfl).1.mpr
      ⟨rfl, Or.inl rfl, rfl, by decide, by decide⟩,
   (refund_allowed_iff (exRefundState false .Active) rfl).2.2 rfl (Or.inl rfl)⟩

/-- C3: for an unpaused registry and an authorized verifier, `approve_prefix`
and `reject_prefix` fail with `InvalidPrefixStatus` from every status other
than Pending (so a second approve of the same record fails); approving a
Pending record past its expiry fails with `PrefixExpired`; a timely approve
succeeds, setting status Active and storing the verifier-supplied
`ref_hash`. -/
theorem approve_reject_only_from_pending (st : VerifierActionState)
    (ref_hash : List Nat) (reason : String)
    (hp : st.fee_registry.pause = false)
    (hv : st.verifiers.verifiers.contains st.verifier = true) :
    (st.record.status ≠ PrefixStatus.Pending →
      approve_prefix_handler st ref_hash = .error .InvalidPrefixStatus ∧
      reject_prefix_handler st reason = .error .InvalidPrefixStatus) ∧
    (st.record.status = PrefixStatus.Pending → st.record.expiry_at < st.now →
      approve_prefix_handler st ref_hash = .error .PrefixExpired) ∧
    (st.record.status = PrefixStatus.Pending → st.now ≤ st.record.expiry_at →
      ∃ st', approve_prefix_handler st ref_hash = .ok st' ∧
        st'.record.status = PrefixStatus.Active ∧
        st'.record.ref_hash = ref_hash) := by
  refine ⟨?_, ?_, ?_⟩
  · intro hs
    constructor
    · unfold approve_prefix_handler
      rw [if_neg (by simp [hp]), if_neg (not_not_intro hv), if_pos hs]
    · unfold reject_prefix_handler
      rw [if_neg (by simp [hp]), if_neg (not_not_intro hv), if_pos hs]
  · intro hs hexp
    unfold approve_prefix_handler
    rw [if_neg (by simp [hp]), if_neg (not_not_intro hv), if_neg (by simp [hs]),
      if_pos (by omega)]
  · intro hs hexp
    refine ⟨{ st with record :=
      { st.record with
          status := .Active,
          ref_hash := ref_hash,
          updated_at := st.now } }, ?_, rfl, rfl⟩
    unfold approve_prefix_handler
    rw [if_neg (by simp [hp]), if_neg (not_not_intro hv), if_neg (by simp [hs]),
      if_neg (by omega)]

/-- Witness for C3: on a concrete Pending record an in-time approve
succeeds, and on the same record already Active both approve and reject
fail with `InvalidPrefixStatus`. -/
theorem approve_reject_only_from_pending_witness :
    (∃ st', approve_prefix_handler (exVerifierActionState false .Pending) exHash = .ok st' ∧
      st'.record.status = PrefixStatus.Active ∧ st'.record.ref_hash = exHash) ∧
    approve_prefix_handler (exVerifierActionState false .Active) exHash =
      .error .InvalidPrefixStatus ∧
    reject_prefix_handler (exVerifierActionState false .Active) "dup" =
      .error .InvalidPrefixStatus :=
  ⟨(approve_reject_only_from_pending (exVerifierActionState false .Pending) exHash "r"
      rfl rfl).2.2 rfl (by decide),
   ((approve_reject_only_from_pending (exVerifierActionState false .Active) exHash "dup"
      rfl rfl).1 (by decide)).1,
   ((approve_reject_only_from_pending (exVerifierActionState false .Active) exHash "dup"
      rfl rfl).1 (by decide)).2⟩

/-- C5: while the registry is paused, `submit_prefix_with_fee` (on a fresh
key), `approve_prefix`, `reject_prefix`, `refund_prefix_fee`,
`withdraw_treasury` and `recover_prefix_owner_with_fee` all fail with
`FeeOperationsPaused` even for an otherwise authorized caller, while
`update_fee` and `set_pause` invoked by the admin still succeed. -/
theorem pause_blocks_fee_operations
    (stS : SubmitState) (pfx metadata_uri : String) (metadata_hash : List Nat)
    (authority_keys : List Pubkey)
    (stV : VerifierActionState) (ref_hash : List Nat) (reason : String)
    (stRf : RefundState)
    (stW : WithdrawState) (amount : Nat) (to_key : Pubkey)
    (stRc : RecoverState) (new_owner : Pubkey)
    (stF : FeeAdminState) (new_fee : Nat) (flag : Bool)
    (hS : stS.fee_registry.pause = true) (hSrec : stS.record = none)
    (hV : stV.fee_registry.pause = true)
    (hRf : stRf.fee_registry.pause = true)
    (hW : stW.fee_registry.pause = true) (hWa : stW.admin = stW.fee_registry.admin)
    (hRc : stRc.fee_registry.pause = true)
    (hRca : stRc.admin = stRc.fee_registry.admin)
    (hFa : stF.admin = stF.fee_registry.admin) :
    submit_prefix_with_fee_handler stS pfx metadata_uri metadata_hash authority_keys =
      .error (.code .FeeOperationsPaused) ∧
    approve_prefix_handler stV ref_hash = .error .FeeOperationsPaused ∧
    reject_prefix_handler stV reason = .error .FeeOperationsPaused ∧
    refund_prefix_fee_handler stRf = .error .FeeOperationsPaused ∧
    withdraw_treasury_handler stW amount to_key = .error .FeeOperationsPaused ∧
    recover_prefix_owner_with_fee_handler stRc new_owner =
      .error .FeeOperationsPaused ∧
    (∃ st', update_fee_handler stF new_fee = .ok st' ∧
      st'.fee_registry.current_fee = new_fee) ∧
    (∃ st', set_pause_handler stF flag = .ok st' ∧
      st'.fee_registry.pause = flag) := by
  refine ⟨?_, ?_, ?_, ?_, ?_, ?_, ?_, ?_⟩
  · unfold submit_prefix_with_fee_handler
    rw [hSrec]
    rw [if_pos hS]
  · unfold approve_prefix_handler
    rw [if_pos hV]
  · unfold reject_prefix_handler
    rw [if_pos hV]
  · unfold refund_prefix_fee_handler
    rw [if_pos hRf]
  · unfold withdraw_treasury_handler
    rw [if_neg (by simp [hWa]), if_pos hW]
  · unfold recover_prefix_owner_with_fee_handler
    rw [if_neg (by simp [hRca]), if_pos hRc]
  · refine ⟨{ stF with fee_registry :=
      { stF.fee_registry with current_fee := new_fee, updated_at := stF.now } },
      ?_, rfl⟩
    unfold update_fee_handler
    rw [if_neg (by simp [hFa])]
  · refine ⟨{ stF with fee_registry :=
      { stF.fee_registry with pause := flag, updated_at := stF.now } }, ?_, rfl⟩
    unfold set_pause_handler
    rw [if_neg (by simp [hFa])]

/-- Witness for C5: concrete paused states for each operation. -/
theorem pause_blocks_fee_operations_witness :
    submit_prefix_with_fee_handler (exSubmitState true) "ABC" "https://x" exHash [] =
      .error (.code .FeeOperationsPaused) ∧
    approve_prefix_handler (exVerifierActionState true .Pending) exHash =
      .error .FeeOperationsPaused ∧
    reject_prefix_handler (exVerifierActionState true .Pending) "r" =
      .error .FeeOperationsPaused ∧
    refund_prefix_fee_handler (exRefundState true .Rejected) =
      .error .FeeOperationsPaused ∧
    withdraw_treasury_handler (exWithdrawState true) 1 [5] =
      .error .FeeOperationsPaused ∧
    recover_prefix_owner_with_fee_handler (exRecoverState true) [4] =
      .error .FeeOperationsPaused ∧
    (∃ st', update_fee_handler (exFeeAdminState true) 42 = .ok st' ∧
      st'.fee_registry.current_fee = 42) ∧
    (∃ st', set_pause_handler (exFeeAdminState true) false = .ok st' ∧
      st'.fee_registry.pause = false) :=
  pause_blocks_fee_operations (exSubmitState true) "ABC" "https://x" exHash []
    (exVerifierActionState true .Pending) exHash "r"
    (exRefundState true .Rejected)
    (exWithdrawState true) 1 [5]
    (exRecoverState true) [4]
    (exFeeAdminState true) 42 false
    rfl rfl rfl rfl rfl rfl rfl rfl rfl

/-- C6: `update_prefix_metadata` called by the owner with metadata passing
submit-style validation and a valid attestation over the new hash replaces
the metadata; on an Active record it resets status to Pending and zeroes
`ref_hash`; on a Pending or Inactive record it leaves status and `ref_hash`
unchanged; on a Rejected record it fails with `InvalidPrefixStatus`. -/
theorem update_metadata_status_transitions (st : UpdateMetaState)
    (new_uri : String) (new_hash : List Nat)
    (hown : st.owner = st.record.owner)
    (hval : validate_metadata new_uri new_hash = .ok ())
    (hsig : verify_ed25519_signature st.ixs st.owner new_hash = .ok ()) :
    (st.record.status = PrefixStatus.Active →
      ∃ st', update_prefix_metadata_handler st new_uri new_hash = .ok st' ∧
        st'.record.status = PrefixStatus.Pending ∧
        st'.record.ref_hash = List.replicate 32 0 ∧
        st'.record.metadata_uri = new_uri ∧
        st'.record.metadata_hash = new_hash) ∧
    (st.record.status = PrefixStatus.Pending ∨
        st.record.status = PrefixStatus.Inactive →
      ∃ st', update_prefix_metadata_handler st new_uri new_hash = .ok st' ∧
        st'.record.status = st.record.status ∧
        st'.record.ref_hash = st.record.ref_hash ∧
        st'.record.metadata_uri = new_uri ∧
        st'.record.metadata_hash = new_hash) ∧
    (st.record.status = PrefixStatus.Rejected →
      update_prefix_metadata_handler st new_uri new_hash =
        .error .InvalidPrefixStatus) := by
  refine ⟨?_, ?_, ?_⟩
  · intro hs
    refine ⟨{ st with record :=
      { st.record with
          metadata_uri := new_uri,
          metadata_hash := new_hash,
          status := PrefixStatus.Pending,
          ref_hash := List.replicate 32 0,
          updated_at := st.now } }, ?_, rfl, rfl, rfl, rfl⟩
    unfold update_prefix_metadata_handler
    rw [if_neg (by simp [hown]), if_neg (by simp [hs]), hval, hsig]
    simp [hs]
  · intro hs
    refine ⟨{ st with record :=
      { st.record with
          metadata_uri := new_uri,
          metadata_hash := new_hash,
          updated_at := st.now } }, ?_, rfl, rfl, rfl, rfl⟩
    unfold update_prefix_metadata_handler
    have hsr : st.record.status ≠ PrefixStatus.Rejected := by
      rcases hs with h | h <;> simp [h]
    rw [if_neg (by simp [hown]), if_neg hsr, hval, hsig]
    have hsa : st.record.status ≠ PrefixStatus.Active := by
      rcases hs with h | h <;> simp [h]
    simp [hsa]
  · intro hs
    unfold update_prefix_metadata_handler
    rw [if_neg (by simp [hown]), if_pos hs]

/-- Witness for C6: updating the metadata of a concrete Active record
succeeds and flips it to Pending, and the same update on it when Rejected
fails with `InvalidPrefixStatus`. -/
theorem update_metadata_status_transitions_witness :
    (∃ st', update_prefix_metadata_handler (exUpdateMetaState .Active) "https://y" exHash =
        .ok st' ∧
      st'.record.status = PrefixStatus.Pending ∧
      st'.record.ref_hash = List.replicate 32 0 ∧
      st'.record.metadata_uri = "https://y" ∧
      st'.record.metadata_hash = exHash) ∧
    update_prefix_metadata_handler (exUpdateMetaState .Rejected) "https://y" exHash =
      .error .InvalidPrefixStatus :=
  ⟨(update_metadata_status_transitions (exUpdateMetaState .Active) "https://y" exHash
      rfl (by rfl) (by rfl)).1 rfl,
   (update_metadata_status_transitions (exUpdateMetaState .Rejected) "https://y" exHash
      rfl (by rfl) (by rfl)).2.2 rfl⟩

/-- C8: for an Active record, admin deactivate followed by admin reactivate
is a round trip — the record ends Active with `ref_hash`, owner, metadata,
authority keys, `fee_paid` and `expiry_at` unchanged; deactivating a
non-Active record and reactivating a non-Inactive record fail with
`InvalidPrefixStatus`. -/
theorem deactivate_reactivate_round_trip (st : AdminPrefixState) (now2 : Int)
    (ha : st.admin = st.fee_registry.admin) :
    (st.record.status = PrefixStatus.Active →
      ∃ st1 st2, deactivate_prefix_handler st = .ok st1 ∧
        st1.record.status = PrefixStatus.Inactive ∧
        reactivate_prefix_handler { st1 with now := now2 } = .ok st2 ∧
        st2.record.status = PrefixStatus.Active ∧
        st2.record.ref_hash = st.record.ref_hash ∧
        st2.record.owner = st.record.owner ∧
        st2.record.metadata_uri = st.record.metadata_uri ∧
        st2.record.metadata_hash = st.record.metadata_hash ∧
        st2.record.authority_keys = st.record.authority_keys ∧
        st2.record.fee_paid = st.record.fee_paid ∧
        st2.record.expiry_at = st.record.expiry_at) ∧
    (st.record.status ≠ PrefixStatus.Active →
      deactivate_prefix_handler st = .error .InvalidPrefixStatus) ∧
    (st.record.status ≠ PrefixStatus.Inactive →
      reactivate_prefix_handler st = .error .InvalidPrefixStatus) := by
  refine ⟨?_, ?_, ?_⟩
  · intro hs
    refine ⟨{ st with record :=
        { st.record with status := .Inactive, updated_at := st.now } },
      { st with
          record := { st.record with status := .Active, updated_at := now2 },
          now := now2 },
      ?_, rfl, ?_, rfl, rfl, rfl, rfl, rfl, rfl, rfl, rfl⟩
    · unfold deactivate_prefix_handler
      rw [if_neg (by simp [ha]), if_neg (not_not_intro hs)]
    · unfold reactivate_prefix_handler
      rw [if_neg (by simp [ha]), if_neg (by simp)]
  · intro hs
    unfold deactivate_prefix_handler
    rw [if_neg (by simp [ha]), if_pos hs]
  · intro hs
    unfold reactivate_prefix_handler
    rw [if_neg (by simp [ha]), if_pos hs]

/-- Witness for C8: the concrete Active record round-trips through
Inactive back to Active. -/
theorem deactivate_reactivate_round_trip_witness :
    ∃ st1 st2, deactivate_prefix_handler (exAdminPrefixState .Active) = .ok st1 ∧
      st1.record.status = PrefixStatus.Inactive ∧
      reactivate_prefix_handler { st1 with now := 2 } = .ok st2 ∧
      st2.record.status = PrefixStatus.Active ∧
      st2.record.ref_hash = (exAdminPrefixState .Active).record.ref_hash ∧
      st2.record.owner = (exAdminPrefixState .Active).record.owner ∧
      st2.record.metadata_uri = (exAdminPrefixState .Active).record.metadata_uri ∧
      st2.record.metadata_hash = (exAdminPrefixState .Active).record.metadata_hash ∧
      st2.record.authority_keys = (exAdminPrefixState .Active).record.authority_keys ∧
      st2.record.fee_paid = (exAdminPrefixState .Active).record.fee_paid ∧
      st2.record.expiry_at = (exAdminPrefixState .Active).record.expiry_at :=
  (deactivate_reactivate_round_trip (exAdminPrefixState .Active) 2 rfl).1 rfl

theorem eraseIdx_append_cons (v : Pubkey) (l1 l2 : List Pubkey) :
    (l1 ++ v :: l2).eraseIdx l1.length = l1 ++ l2 := by
  induction l1 with
  | nil => simp
  | cons a as ih => simp [List.eraseIdx_cons_succ, ih]

theorem findIdx_first_occurrence (v : Pubkey) :
    ∀ (l1 l2 : List Pubkey) (i : Nat), v ∉ l1 →
      List.findIdx? (fun x => x == v) (l1 ++ v :: l2) i = some (i + l1.length) := by
  intro l1
  induction l1 with
  | nil =>
      intro l2 i _
      simp [List.findIdx?_cons]
  | cons a as ih =>
      intro l2 i hnot
      simp only [List.mem_cons, not_or] at hnot
      simp only [List.cons_append, List.findIdx?_cons]
      rw [if_neg (by simp [Ne.symm hnot.1])]
      rw [ih l2 (i + 1) hnot.2]
      simp only [List.length_cons, Option.some.injEq]
      omega

/-- C9: admin `remove_verifier` on an absent identity fails with the reused
`UnauthorizedVerifier` error code (no state is written); on a present
identity it removes exactly the first occurrence of that entry. -/
theorem remove_verifier_spec (st : VerifierAdminState) (v : Pubkey)
    (ha : st.admin = st.fee_registry.admin) :
    (st.verifiers.verifiers.contains v = false →
      remove_verifier_handler st v = .error .UnauthorizedVerifier) ∧
    (∀ l1 l2, st.verifiers.verifiers = l1 ++ v :: l2 → v ∉ l1 →
      ∃ st', remove_verifier_handler st v = .ok st' ∧
        st'.verifiers.verifiers = l1 ++ l2) := by
  constructor
  · intro hc
    unfold remove_verifier_handler
    rw [if_neg (by simp [ha])]
    have hmem : v ∉ st.verifiers.verifiers := by simpa using hc
    have hnone : st.verifiers.verifiers.findIdx? (fun x => x == v) = none := by
      rw [List.findIdx?_eq_none_iff]
      intro x hx
      simp only [beq_eq_false_iff_ne, ne_eq]
      rintro rfl
      exact hmem hx
    rw [hnone]
  · intro l1 l2 hdec hnot
    refine ⟨{ st with verifiers :=
      { st.verifiers with
          verifiers := l1 ++ l2,
          updated_at := st.now } }, ?_, rfl⟩
    unfold remove_verifier_handler
    rw [if_neg (by simp [ha]), hdec,
      findIdx_first_occurrence v l1 l2 0 hnot]
    simp only [Nat.zero_add, eraseIdx_append_cons]

/-- Witness for C9: removing an absent identity from the one-element
directory fails with `UnauthorizedVerifier`; removing the present one
leaves the empty directory. -/
theorem remove_verifier_spec_witness :
    remove_verifier_handler (exVerifierAdminState false) [0] =
      .error .UnauthorizedVerifier ∧
    (∃ st', remove_verifier_handler (exVerifierAdminState false) exVerifier =
        .ok st' ∧
      st'.verifiers.verifiers = ([] : List Pubkey) ++ []) :=
  ⟨(remove_verifier_spec (exVerifierAdminState false) [0] rfl).1 (by decide),
   (remove_verifier_spec (exVerifierAdminState false) exVerifier rfl).2 [] []
     rfl (by simp)⟩

/-- C10: admin `add_verifier` with an identity already present fails with
the prefix-lifecycle error code `InvalidPrefixStatus` (no state is
written). -/
theorem add_verifier_duplicate_invalid_status (st : VerifierAdminState)
    (v : Pubkey) (ha : st.admin = st.fee_registry.admin)
    (hc : st.verifiers.verifiers.contains v = true) :
    add_verifier_handler st v = .error .InvalidPrefixStatus := by
  unfold add_verifier_handler
  rw [if_neg (by simp [ha]), if_pos hc]

/-- Witness for C10: adding the already-present verifier fails with
`InvalidPrefixStatus`. -/
theorem add_verifier_duplicate_invalid_status_witness :
    add_verifier_handler (exVerifierAdminState false) exVerifier =
      .error .InvalidPrefixStatus :=
  add_verifier_duplicate_invalid_status (exVerifierAdminState false) exVerifier
    rfl (by decide)

set_option maxRecDepth 4096 in
/-- C7 counterexample: `add_verifier` does not reject when asked to add to
a full set — on a directory already holding `MAX_VERIFIERS` (256) entries,
an admin call with a fresh identity succeeds and the set grows to 257. -/
theorem add_verifier_full_set_accepts_cex :
    exFullVerifierAdminState.verifiers.verifiers.length = MAX_VERIFIERS ∧
    add_verifier_handler exFullVerifierAdminState [999] = .ok exFullAddResult ∧
    exFullAddResult.verifiers.verifiers.length = MAX_VERIFIERS + 1 :=
  ⟨by decide, by rfl, by decide⟩

/-- C7 (amended): `add_verifier` performs no capacity validation against
`MAX_VERIFIERS` — with an admin caller and a not-yet-present identity it
always appends, even when the set already holds `MAX_VERIFIERS` entries or
more; the 256-entry bound is imposed only by the account's fixed
allocation in the storage layer, outside the handler. -/
theorem add_verifier_no_capacity_check (st : VerifierAdminState) (v : Pubkey)
    (ha : st.admin = st.fee_registry.admin)
    (hc : st.verifiers.verifiers.contains v = false)
    (hfull : MAX_VERIFIERS ≤ st.verifiers.verifiers.length) :
    ∃ st', add_verifier_handler st v = .ok st' ∧
      st'.verifiers.verifiers = st.verifiers.verifiers ++ [v] ∧
      MAX_VERIFIERS < st'.verifiers.verifiers.length := by
  refine ⟨{ st with verifiers :=
    { st.verifiers with
        verifiers := st.verifiers.verifiers ++ [v],
        updated_at := st.now } }, ?_, rfl, ?_⟩
  · unfold add_verifier_handler
    rw [if_neg (by simp [ha]), if_neg (by rw [hc]; exact Bool.false_ne_true)]
  · simp only [List.length_append, List.length_cons, List.length_nil]
    omega

set_option maxRecDepth 4096 in
/-- Witness for C7 (amended): the full 256-entry directory accepts a fresh
identity and grows past `MAX_VERIFIERS`. -/
theorem add_verifier_no_capacity_check_witness :
    ∃ st', add_verifier_handler exFullVerifierAdminState [999] = .ok st' ∧
      st'.verifiers.verifiers =
        exFullVerifierAdminState.verifiers.verifiers ++ [[999]] ∧
      MAX_VERIFIERS < st'.verifiers.verifiers.length :=
  add_verifier_no_capacity_check exFullVerifierAdminState [999] rfl (by decide)
    (by decide)

end PrefixSystem
